import Mathlib

/-!
Shallow embedding of the KenDB3 api_lib/api_fields.py subsystem.

Python dicts are modelled as insertion-ordered association lists with unique
keys, model instances as records of a primary key and an attribute dict, and
Python exceptions as values carrying the exception class and the message
string. Object identity (the Python `is` operator, used by the resolver to
match markers against annotations and class namespaces) is modelled by
natural-number object ids.
-/

set_option autoImplicit false

/-- A Python dict: an insertion-ordered association list with unique keys. -/
abbrev PyDict (α : Type) := List (String × α)

/-- Python dict lookup, as in `d.get(k)` or a guarded `d[k]`. -/
def dget? {α : Type} : PyDict α → String → Option α
  | [], _ => Option.none
  | p :: rest, k => if p.1 = k then some p.2 else dget? rest k

/-- Python dict assignment: replace the value of an existing key in place,
otherwise append the new key at the end (insertion order). -/
def dset {α : Type} : PyDict α → String → α → PyDict α
  | [], k, v => [(k, v)]
  | p :: rest, k, v => if p.1 = k then (k, v) :: rest else p :: dset rest k v

/-- Python membership test `k in d`. -/
def dcontains {α : Type} (d : PyDict α) (k : String) : Bool :=
  (dget? d k).isSome

/-- Python `d.keys()`, in insertion order. -/
def dkeys {α : Type} (d : PyDict α) : List String :=
  d.map (fun p => p.1)

/-- The Python exception classes raised in api_fields.py. -/
inductive ExnClass
  | valueError
  | typeError
  | nameError
  deriving DecidableEq

/-- A raised Python exception: its class and its message. -/
structure PyExn where
  cls : ExnClass
  msg : String
  deriving DecidableEq

/-- Basic Python values handled by the (de)serializer. Lists that occur in
the subsystem are lists of primary keys or of tag names. -/
inductive Val
  | pynone
  | int (n : Int)
  | str (s : String)
  | intList (l : List Int)
  | strList (l : List String)
  deriving DecidableEq

/-- A model instance: its primary key `pk` plus its ordinary attributes. -/
structure PyObject where
  pk : Val
  attrs : PyDict Val
  deriving DecidableEq

/-- Plain `getattr(obj, name)` on a model instance. Every registered scalar
field of a model instance exists as an attribute; a missing attribute is
modelled as `Val.pynone` (no claim exercises AttributeError). -/
def py_getattr (obj : PyObject) (name : String) : Val :=
  (dget? obj.attrs name).getD Val.pynone

/-- Plain `setattr(obj, name, value)` on a model instance. -/
def py_setattr (obj : PyObject) (name : String) (value : Val) : PyObject :=
  { obj with attrs := dset obj.attrs name value }

/-- Embeds `_related_manager_get`: the manager of a to-many relation yields
the list of primary keys of the related objects; the membership of the
relation is modelled as the stored `Val.intList` attribute value. -/
def _related_manager_get (obj : PyObject) (name : String) : Val :=
  Val.intList (match dget? obj.attrs name with
    | some (Val.intList l) => l
    | _ => [])

/-- Embeds `_related_manager_set`: replace the membership of the relation by
the given list of primary keys. -/
def _related_manager_set (obj : PyObject) (name : String) (value : Val) : PyObject :=
  py_setattr obj name (Val.intList (match value with
    | Val.intList l => l
    | _ => []))

/-- Embeds `_taggable_manager_get`: the list of tag names. -/
def _taggable_manager_get (obj : PyObject) (name : String) : Val :=
  Val.strList (match dget? obj.attrs name with
    | some (Val.strList l) => l
    | _ => [])

/-- Embeds `_taggable_manager_set`: replace the tag set. -/
def _taggable_manager_set (obj : PyObject) (name : String) (value : Val) : PyObject :=
  py_setattr obj name (Val.strList (match value with
    | Val.strList l => l
    | _ => []))

/-- Resolved field metadata, embedding the `FieldMeta` namedtuple. The
accessor defaults are plain attribute access, as in
`defaults=(getattr, setattr)`. -/
structure FieldMeta where
  name : String
  getter : PyObject → String → Val := py_getattr
  setter : PyObject → String → Val → PyObject := py_setattr

/-- An explicit accessor pair carried by a registration request. -/
abbrev Accessors := (PyObject → String → Val) × (PyObject → String → Val → PyObject)

/-- Python repr of a str, as interpolated by the `!r` conversions in the
source messages. -/
def pyQuote (s : String) : String := "\x27" ++ s ++ "\x27"

/-- Python str of a list of strings, as spliced in by `str.format`. -/
def pyStrList (l : List String) : String :=
  "[" ++ String.intercalate ", " (l.map pyQuote) ++ "]"

def lbrace : Char := Char.ofNat 123

def rbrace : Char := Char.ofNat 125

/-- Embeds `str.format` with one positional argument, as used by
`_find_exactly_one`: a doubled brace is an escape for a literal brace, and an
empty brace pair splices in the argument. -/
def pyFormatGo (arg : List Char) : Nat → List Char → List Char
  | _, [] => []
  | 0, l => l
  | _ + 1, [c] => [c]
  | fuel + 1, c1 :: c2 :: rest =>
    if c1 == lbrace && c2 == lbrace then lbrace :: pyFormatGo arg fuel rest
    else if c1 == rbrace && c2 == rbrace then rbrace :: pyFormatGo arg fuel rest
    else if c1 == lbrace && c2 == rbrace then arg ++ pyFormatGo arg fuel rest
    else c1 :: pyFormatGo arg fuel (c2 :: rest)

def pyFormatAux (arg l : List Char) : List Char :=
  pyFormatGo arg l.length l

def pyFormat (template : String) (arg : String) : String :=
  String.mk (pyFormatAux arg.data template.data)

/-- Python str(cls) for a model class; CPython also prints the module
qualifier, which the embedding leaves out (no claim depends on it). -/
def pyStrOfClass (clsName : String) : String := "<class " ++ pyQuote clsName ++ ">"

/-- Discriminates ForeignKey and OneToOneField from other Django field
classes, as tested by `_determine_field_meta`. -/
inductive DjFieldKind
  | foreignKey
  | oneToOneField
  | otherField
  deriving DecidableEq

/-- The `.field` attribute of a relation descriptor. For a foreign key or a
one-to-one field declared under attribute name X, Django sets its attname to
X followed by the suffix _id: the raw database column. -/
structure DjField where
  kind : DjFieldKind
  attname : String
  deriving DecidableEq

/-- A value in a class namespace, as far as `_determine_field_meta` and the
identity lookups inspect it. `oid` models CPython object identity; `field`
is the `.field` attribute if the object has one. -/
structure ClassAttr where
  oid : Nat
  field : Option DjField := Option.none
  isTaggableManager : Bool := false
  hasRelatedManagerCls : Bool := false
  deriving DecidableEq

/-- A model class at finalization time: its name, its own namespace dict, and
its declared annotations (absent on classes without annotations; values are
the object ids of the annotation values). -/
structure PyClass where
  name : String
  dict : PyDict ClassAttr
  annots : Option (PyDict Nat)
  deriving DecidableEq

/-- The locator of a registration request (`_Request.find_by`): a literal
attribute name, a registrar matched by identity against the annotations, or
an attribute object matched by identity against the class namespace. A
registrar carries its groups for its repr. -/
inductive FindBy
  | attrName (s : String)
  | registrar (oid : Nat) (rgroups : List String)
  | attrObject (oid : Nat)
  deriving DecidableEq

/-- Python str of a marked attribute object, used in resolver messages. The
CPython text embeds a memory address, abstracted here by the object id. -/
def objStr (oid : Nat) : String := "<api property object " ++ toString oid ++ ">"

/-- Python repr(find_by), used in the use-after-assembly message: repr of a
string, the registrar repr format, or the descriptor repr (abstracted). -/
def FindBy.pyRepr : FindBy → String
  | .attrName s => pyQuote s
  | .registrar _ rgroups => "@_api(" ++ String.intercalate ", " (rgroups.map pyQuote) ++ ")"
  | .attrObject oid => objStr oid

/-- Embeds `APIEngine._Request`: `accessors` is the getter and setter pair
when the request carried explicit accessors and None otherwise. (The source
also accepts a lone getter or setter, leaving the other accessor None inside
the resulting FieldMeta; neither the repository nor any claim uses that
corner and it is not representable here.) -/
structure Request where
  find_by : FindBy
  groups : List String
  accessors : Option Accessors

/-- Message of the error raised by `APIEngine._request` after assembly. -/
def alreadyAssembledMsg (find_by : FindBy) : String :=
  "API is already assembled, cannot request registration of " ++ find_by.pyRepr

def alreadyAssembledExn (find_by : FindBy) : PyExn :=
  ⟨ExnClass.valueError, alreadyAssembledMsg find_by⟩

/-- Embeds `_find_exactly_one`. A None message models passing a falsy
message, which suppresses the corresponding error and yields None instead.
The many-candidates message is formatted with the full candidate list. -/
def _find_exactly_one (candidates : List String)
    (message_if_zero message_if_many : Option String) : Except PyExn (Option String) :=
  match candidates with
  | [] =>
    match message_if_zero with
    | some m => .error ⟨ExnClass.valueError, m⟩
    | Option.none => .ok Option.none
  | [c] => .ok (some c)
  | c1 :: c2 :: rest =>
    match message_if_many with
    | some m => .error ⟨ExnClass.valueError, pyFormat m (pyStrList (c1 :: c2 :: rest))⟩
    | Option.none => .ok Option.none

/-- Embeds the tail of `_determine_field_meta`: the taggable-manager check,
the related-manager check, and the plain default. -/
def _determine_manager_meta (name : String) (attrVal : ClassAttr) : FieldMeta :=
  if attrVal.isTaggableManager then
    ⟨name, _taggable_manager_get, _taggable_manager_set⟩
  else if attrVal.hasRelatedManagerCls then
    ⟨name, _related_manager_get, _related_manager_set⟩
  else
    ⟨name, py_getattr, py_setattr⟩

/-- Embeds `_determine_field_meta`: a foreign key or one-to-one field is
registered under its raw column name (attname) with plain accessors;
managers get their accessor pairs; everything else, and attributes the class
does not have, gets plain accessors under the requested name. -/
def _determine_field_meta (cls : PyClass) (name : String) : FieldMeta :=
  match dget? cls.dict name with
  | Option.none => ⟨name, py_getattr, py_setattr⟩
  | some attrVal =>
    match attrVal.field with
    | some django_field =>
      if django_field.kind = DjFieldKind.foreignKey then
        ⟨django_field.attname, py_getattr, py_setattr⟩
      else if django_field.kind = DjFieldKind.oneToOneField then
        ⟨django_field.attname, py_getattr, py_setattr⟩
      else
        _determine_manager_meta name attrVal
    | Option.none => _determine_manager_meta name attrVal

/-- The many-matches message template of the registrar branch. In the source
the first literal is a plain (non-formatted) string, so its doubled braces
survive into the template verbatim and are later collapsed by `str.format`
into a literal empty brace pair instead of acting as a placeholder. -/
def registrarManyTemplate (cls : PyClass) : String :=
  "@_api() annotation reused on fields \x7b\x7b\x7d\x7d in " ++ pyStrOfClass cls.name

/-- The zero-matches message of the attribute-object branch. -/
def objZeroMsg (oid : Nat) (cls : PyClass) : String :=
  "Attribute object " ++ objStr oid ++ ", marked as API, not found in " ++ pyStrOfClass cls.name

/-- The many-matches message template of the attribute-object branch. Here
the literal is an f-string, so its doubled braces already collapse to a
single brace pair, which `str.format` then fills with the duplicate list. -/
def objManyTemplate (oid : Nat) (cls : PyClass) : String :=
  "Attribute object " ++ objStr oid ++ ", marked as API, found in several fields in "
    ++ pyStrOfClass cls.name ++ ": \x7b\x7d"

/-- Resolves `request.find_by` to an attribute name, following the three
branches of the loop in `_assemble_groups`. An `.ok Option.none` result
models `continue` (a tolerated zero-match skip). -/
def resolveRequestName (cls : PyClass) (request : Request) : Except PyExn (Option String) :=
  match request.find_by with
  | .attrName s => .ok (some s)
  | .registrar oid _ =>
    match cls.annots with
    | Option.none => .ok Option.none
    | some anns =>
      _find_exactly_one ((anns.filter (fun p => p.2 == oid)).map (fun p => p.1))
        Option.none (some (registrarManyTemplate cls))
  | .attrObject oid =>
    _find_exactly_one ((cls.dict.filter (fun p => p.2.oid == oid)).map (fun p => p.1))
      (some (objZeroMsg oid cls)) (some (objManyTemplate oid cls))

/-- One iteration of the request loop in `_assemble_groups`: resolve the
request, build its FieldMeta (explicit accessors win over inspection), and
append the FieldMeta to every group the request listed. -/
def assembleStep (cls : PyClass) (field_groups : PyDict (List FieldMeta)) (request : Request) :
    Except PyExn (PyDict (List FieldMeta)) :=
  match resolveRequestName cls request with
  | .error e => .error e
  | .ok Option.none => .ok field_groups
  | .ok (some name) =>
    let field : FieldMeta :=
      match request.accessors with
      | some acc => ⟨name, acc.1, acc.2⟩
      | Option.none => _determine_field_meta cls name
    .ok (request.groups.foldl
      (fun fgs group => dset fgs group ((dget? fgs group).getD [] ++ [field])) field_groups)

/-- Inserts an underscore before every uppercase letter of the list. -/
def insertUnderscores : List Char → List Char
  | [] => []
  | c :: rest => (if c.isUpper then ['_', c] else [c]) ++ insertUnderscores rest

def pyLower (l : List Char) : List Char := l.map Char.toLower

/-- Embeds the api_name computation of `_assemble_groups`: the regex matches
every position that is not the string start and is followed by an uppercase
letter, so an underscore is inserted before every uppercase letter except at
position zero, and the result is lowercased. -/
def pyApiName (name : String) : String :=
  String.mk (pyLower (match name.data with
    | [] => []
    | c :: rest => c :: insertUnderscores rest))

/-- The result of a completed `_assemble_groups` run. `all_fields` is a
Python set in the source, modelled as a deduplicated list. -/
structure AssembledAPI where
  field_groups : PyDict (List FieldMeta)
  api_name : String
  all_fields : List String

/-- Embeds `_assemble_groups`: fold the drained request list into
field_groups, then derive api_name and all_fields. -/
def _assemble_groups (cls : PyClass) (requests : List Request) : Except PyExn AssembledAPI :=
  match requests.foldlM (assembleStep cls) ([] : PyDict (List FieldMeta)) with
  | .error e => .error e
  | .ok fgs =>
    .ok { field_groups := fgs
          api_name := pyApiName cls.name
          all_fields := (((fgs.map (fun p => p.2)).flatten).map FieldMeta.name).dedup }

/-- The per-model engine. The dropped request list models `_requests = None`
after assembly; `all_fields` is only created at assembly, so its absence is
also an Option. -/
structure APIEngine where
  _requests : Option (List Request)
  field_groups : Option (PyDict (List FieldMeta))
  api_name : Option String
  all_fields : Option (List String)

/-- Embeds `APIEngine.__init__`. -/
def APIEngine.init : APIEngine :=
  { _requests := some [], field_groups := Option.none
    api_name := Option.none, all_fields := Option.none }

/-- Embeds `APIEngine._request`. After assembly the call raises before any
mutation, so the engine comes back unchanged; otherwise the request is
appended and returned as a handle. -/
def APIEngine._request (e : APIEngine) (find_by : FindBy) (groups : List String)
    (accessors : Option Accessors) : (Except PyExn Request) × APIEngine :=
  match e._requests with
  | Option.none => (.error (alreadyAssembledExn find_by), e)
  | some requests =>
    let r : Request := { find_by := find_by, groups := groups, accessors := accessors }
    (.ok r, { e with _requests := some (requests ++ [r]) })

/-- The groups argument of `add_field`: a bare string or a list of strings. -/
inductive GroupsArg
  | str (s : String)
  | list (l : List String)

/-- Embeds `APIEngine.add_field`: a bare string is normalized to a
single-element list before filing the request under the literal name. -/
def APIEngine.add_field (e : APIEngine) (name : String) (groups : GroupsArg)
    (accessors : Option Accessors) : (Except PyExn Request) × APIEngine :=
  let gs := match groups with
    | GroupsArg.str s => [s]
    | GroupsArg.list l => l
  e._request (FindBy.attrName name) gs accessors

/-- Embeds `APIEngine.add_related`: `add_field` with the relation-manager
accessor pair pre-filled. -/
def APIEngine.add_related (e : APIEngine) (name : String) (groups : GroupsArg) :
    (Except PyExn Request) × APIEngine :=
  e.add_field name groups (some (_related_manager_get, _related_manager_set))

/-- Embeds the effect of the api_model decorator on the engine: drain the
requests permanently, assemble, and publish the frozen metadata. -/
def APIEngine.assemble (e : APIEngine) (cls : PyClass) : Except PyExn APIEngine :=
  match _assemble_groups cls (e._requests.getD []) with
  | .error ex => .error ex
  | .ok a =>
    .ok { _requests := Option.none, field_groups := some a.field_groups
          api_name := some a.api_name, all_fields := some a.all_fields }

def noGroupMsg (group : String) : String :=
  "No fields registered in group " ++ pyQuote group

def noGroupExn (group : String) : PyExn := ⟨ExnClass.valueError, noGroupMsg group⟩

/-- Embeds `APIEngine._get_fields` over the assembled field_groups. -/
def _get_fields (field_groups : PyDict (List FieldMeta)) (group : String) :
    Except PyExn (List FieldMeta) :=
  match dget? field_groups group with
  | some result => .ok result
  | Option.none => .error (noGroupExn group)

/-- The dict comprehension of `_api_serialize_impl` followed by the
primary-key assignment under key id. -/
def serializeFields (fields : List FieldMeta) (self : PyObject) : PyDict Val :=
  dset (fields.foldl (fun result f => dset result f.name (f.getter self f.name)) []) "id" self.pk

/-- Embeds `_api_serialize_impl`, with the field groups of the owning model
passed explicitly. -/
def api_serialize (field_groups : PyDict (List FieldMeta)) (self : PyObject)
    (group : String) : Except PyExn (PyDict Val) :=
  match _get_fields field_groups group with
  | .error e => .error e
  | .ok fields => .ok (serializeFields fields self)

/-- The exception raised by evaluating the unbound name self. -/
def nameErrorSelf : PyExn := ⟨ExnClass.nameError, "name \x27self\x27 is not defined"⟩

/-- Embeds the field loop of `_api_deserialize_impl`. The source loop body is
`setter(self, field, data[field])`, but the name self is not bound inside the
classmethod (only cls, data, group, fields and obj are in scope), so the
first field whose name is present in data raises NameError instead of
assigning the field to obj. -/
def deserializeLoop (data : PyDict Val) : List FieldMeta → PyObject → Except PyExn PyObject
  | [], obj => .ok obj
  | f :: rest, obj =>
    if dcontains data f.name then .error nameErrorSelf
    else deserializeLoop data rest obj

/-- Embeds `_api_deserialize_impl`, with the field groups passed explicitly
and the result of the cls() constructor — a fresh instance carrying every
field at its model default — passed as newInstance. -/
def api_deserialize (field_groups : PyDict (List FieldMeta)) (newInstance : PyObject)
    (data : PyDict Val) (group : String) : Except PyExn PyObject :=
  match _get_fields field_groups group with
  | .error e => .error e
  | .ok fields =>
    let obj := newInstance
    let obj := if dcontains data "id" then
        { obj with pk := (dget? data "id").getD Val.pynone }
      else obj
    deserializeLoop data fields obj

/-- State of one property-path registration: the CPython object-id allocator
and the find_by locator of the originating request. -/
structure PropContext where
  nextOid : Nat
  requestFindBy : Nat
  deriving DecidableEq

/-- Embeds `_Registrar.property`: a fresh descriptor object is allocated and
a request whose locator is that descriptor is filed; returns the new context
and the id of the first wrapper. -/
def registrarProperty (nextOid : Nat) : PropContext × Nat :=
  ({ nextOid := nextOid + 1, requestFindBy := nextOid }, nextOid)

/-- Embeds the getter, setter and deleter wrappers of the tracking property
class: each allocates a new descriptor object, updates the originating
request locator through `_update`, and returns the new descriptor. -/
def apiPropertyRebind (ctx : PropContext) : PropContext × Nat :=
  ({ nextOid := ctx.nextOid + 1, requestFindBy := ctx.nextOid }, ctx.nextOid)

def propertyChainAux : Nat → PropContext × Nat → PropContext × Nat
  | 0, s => s
  | n + 1, s => propertyChainAux n (apiPropertyRebind s.1)

/-- The descriptor produced by the property factory followed by n rebinding
steps, together with the final registration context. -/
def propertyChain (start n : Nat) : PropContext × Nat :=
  propertyChainAux n (registrarProperty start)

/-- Specification wording of the api_name derivation: an underscore before
each internal uppercase letter (the flag marks the first character, which
never receives one), then lowercase. -/
def insertSpec : Bool → List Char → List Char
  | _, [] => []
  | isFirst, c :: rest =>
    (if c.isUpper && !isFirst then ['_'] else []) ++ c :: insertSpec false rest

def api_name_spec (name : String) : String :=
  String.mk (pyLower (insertSpec true name.data))

/-- Substring test, used to state whether an error message names a field. -/
def strContains (hay needle : String) : Bool :=
  (List.range (hay.data.length + 1)).any (fun i => needle.data.isPrefixOf (hay.data.drop i))

/-! ### Dictionary lemmas -/

theorem dget?_dset_same {α : Type} (d : PyDict α) (k : String) (v : α) :
    dget? (dset d k v) k = some v := by
  induction d with
  | nil => simp [dset, dget?]
  | cons p rest ih =>
    by_cases h : p.1 = k
    · simp [dset, h, dget?]
    · simp [dset, h, dget?, ih]

theorem dget?_dset_ne {α : Type} (d : PyDict α) (k k2 : String) (v : α) (h : k2 ≠ k) :
    dget? (dset d k v) k2 = dget? d k2 := by
  induction d with
  | nil => simp [dset, dget?, Ne.symm h]
  | cons p rest ih =>
    by_cases hp : p.1 = k
    · simp [dset, dget?, hp, Ne.symm h]
    · simp only [dset, if_neg hp, dget?]
      by_cases hq : p.1 = k2
      · rw [if_pos hq, if_pos hq]
      · rw [if_neg hq, if_neg hq]
        exact ih

theorem mem_dkeys_dset {α : Type} (d : PyDict α) (k k2 : String) (v : α) :
    k2 ∈ dkeys (dset d k v) ↔ k2 ∈ dkeys d ∨ k2 = k := by
  induction d with
  | nil => simp [dset, dkeys]
  | cons p rest ih =>
    by_cases hp : p.1 = k
    · simp only [dset, if_pos hp, dkeys, List.map_cons, List.mem_cons]
      rw [hp]
      tauto
    · simp only [dset, if_neg hp, dkeys, List.map_cons, List.mem_cons]
      have ih2 := ih
      simp only [dkeys] at ih2
      rw [ih2]
      tauto

theorem dkeys_dset_of_not_mem {α : Type} (d : PyDict α) (k : String) (v : α)
    (h : k ∉ dkeys d) : dkeys (dset d k v) = dkeys d ++ [k] := by
  induction d with
  | nil => simp [dset, dkeys]
  | cons p rest ih =>
    have hp : ¬ p.1 = k := by
      intro e
      exact h (by simp [dkeys, e])
    have hr : k ∉ dkeys rest := by
      intro hm
      exact h (by simp [dkeys] at hm ⊢; exact Or.inr hm)
    simp only [dset, if_neg hp, dkeys, List.map_cons]
    have := ih hr
    simp only [dkeys] at this
    rw [this, List.cons_append]

/-! ### Deserializer loop lemma -/

theorem deserializeLoop_skip (data : PyDict Val) :
    ∀ (fields : List FieldMeta) (obj : PyObject),
      (∀ f ∈ fields, dcontains data f.name = false) →
      deserializeLoop data fields obj = .ok obj := by
  intro fields
  induction fields with
  | nil => intro obj _; rfl
  | cons f rest ih =>
    intro obj h
    have hf : dcontains data f.name = false := h f (by simp)
    simp only [deserializeLoop, hf, Bool.false_eq_true, if_neg]
    exact ih obj (fun g hg => h g (by simp [hg]))

/-! ### Serializer fold lemmas -/

theorem serialize_foldl_lookup_none (inst : PyObject) (fields : List FieldMeta) :
    ∀ (d : PyDict Val) (k : String),
      fields.reverse.find? (fun f => f.name == k) = Option.none →
      dget? (fields.foldl (fun result f => dset result f.name (f.getter inst f.name)) d) k =
        dget? d k := by
  induction fields with
  | nil => intro d k _; rfl
  | cons f rest ih =>
    intro d k hfind
    rw [List.reverse_cons, List.find?_append] at hfind
    have h1 : rest.reverse.find? (fun f => f.name == k) = Option.none := by
      cases hr : rest.reverse.find? (fun f => f.name == k) with
      | none => rfl
      | some g => rw [hr] at hfind; simp [Option.or] at hfind
    rw [h1] at hfind
    simp only [Option.or] at hfind
    have h2 : ¬ (f.name == k) = true := by
      intro hb
      simp [List.find?_cons, hb] at hfind
    rw [List.foldl_cons, ih _ k h1]
    exact dget?_dset_ne d f.name k _
      (fun e => h2 (by rw [e]; exact beq_self_eq_true f.name))

theorem serialize_foldl_lookup_some (inst : PyObject) (fields : List FieldMeta) :
    ∀ (d : PyDict Val) (k : String) (g : FieldMeta),
      fields.reverse.find? (fun f => f.name == k) = some g →
      dget? (fields.foldl (fun result f => dset result f.name (f.getter inst f.name)) d) k =
        some (g.getter inst g.name) := by
  induction fields with
  | nil => intro d k g h; simp at h
  | cons f rest ih =>
    intro d k g hfind
    rw [List.reverse_cons, List.find?_append] at hfind
    rw [List.foldl_cons]
    cases hr : rest.reverse.find? (fun f => f.name == k) with
    | some g2 =>
      rw [hr] at hfind
      simp only [Option.or] at hfind
      injection hfind with hg
      subst hg
      exact ih _ k g2 hr
    | none =>
      rw [hr] at hfind
      simp only [Option.or] at hfind
      have hk : (f.name == k) = true := by
        by_cases hb : (f.name == k) = true
        · exact hb
        · simp [List.find?_cons, hb] at hfind
      have hg : f = g := by
        simp [List.find?_cons, hk] at hfind
        exact hfind
      have hkeq : f.name = k := eq_of_beq hk
      rw [serialize_foldl_lookup_none inst rest _ k hr]
      subst hg
      rw [← hkeq, dget?_dset_same]

theorem serialize_foldl_mem (inst : PyObject) (fields : List FieldMeta) :
    ∀ (d : PyDict Val) (k : String),
      k ∈ dkeys (fields.foldl (fun result f => dset result f.name (f.getter inst f.name)) d) ↔
        k ∈ dkeys d ∨ ∃ f ∈ fields, f.name = k := by
  induction fields with
  | nil => intro d k; simp
  | cons f rest ih =>
    intro d k
    rw [List.foldl_cons, ih, mem_dkeys_dset]
    constructor
    · rintro ((h | h) | ⟨g, hg, he⟩)
      · exact Or.inl h
      · exact Or.inr ⟨f, by simp, h.symm⟩
      · exact Or.inr ⟨g, by simp [hg], he⟩
    · rintro (h | ⟨g, hg, he⟩)
      · exact Or.inl (Or.inl h)
      · rcases List.mem_cons.mp hg with hgf | hgr
        · exact Or.inl (Or.inr (by rw [← hgf, he]))
        · exact Or.inr ⟨g, hgr, he⟩

theorem serialize_foldl_keys (inst : PyObject) (fields : List FieldMeta) :
    ∀ (d : PyDict Val),
      (fields.map FieldMeta.name).Nodup →
      (∀ f ∈ fields, f.name ∉ dkeys d) →
      dkeys (fields.foldl (fun result f => dset result f.name (f.getter inst f.name)) d) =
        dkeys d ++ fields.map FieldMeta.name := by
  induction fields with
  | nil => intro d _ _; simp
  | cons f rest ih =>
    intro d hnd hnotin
    rw [List.map_cons, List.nodup_cons] at hnd
    rw [List.foldl_cons]
    have hfd : f.name ∉ dkeys d := hnotin f (by simp)
    have hstep : ∀ g ∈ rest, g.name ∉ dkeys (dset d f.name (f.getter inst f.name)) := by
      intro g hg hmem
      rw [dkeys_dset_of_not_mem d f.name _ hfd, List.mem_append] at hmem
      rcases hmem with hmem | hmem
      · exact hnotin g (by simp [hg]) hmem
      · rw [List.mem_singleton] at hmem
        exact hnd.1 (hmem ▸ List.mem_map_of_mem FieldMeta.name hg)
    rw [ih _ hnd.2 hstep, dkeys_dset_of_not_mem d f.name _ hfd, List.append_assoc,
        List.singleton_append, List.map_cons]

/-! ### Claim C10 -/

/-- C10: for every instance and every declared group, the id entry of the
mapping returned by api_serialize equals the primary key of the instance,
even when a field literally named id is registered in that group: the
primary-key assignment runs after all field getters and overwrites any
getter-produced value stored under that key. -/
theorem c10_id_overwrites (field_groups : PyDict (List FieldMeta)) (inst : PyObject)
    (group : String) (result : PyDict Val)
    (h : api_serialize field_groups inst group = .ok result) :
    dget? result "id" = some inst.pk := by
  unfold api_serialize at h
  cases hg : _get_fields field_groups group with
  | error e => rw [hg] at h; exact absurd h (by simp)
  | ok fields =>
    rw [hg] at h
    simp only [Except.ok.injEq] at h
    rw [← h]
    exact dget?_dset_same _ "id" inst.pk

/-- Witness for C10 at a group containing a field literally named id whose
getter yields 999 while the primary key is 7. -/
theorem c10_id_overwrites_witness :
    dget? [("id", Val.int 7)] "id" = some (Val.int 7) :=
  c10_id_overwrites [("g", [{ name := "id", getter := fun _ _ => Val.int 999 }])]
    ⟨Val.int 7, []⟩ "g" [("id", Val.int 7)] rfl

/-! ### Claim C1 -/

/-- C1: the claim states that api_deserialize applied to api_serialize output
reconstructs an unsaved instance whose scalar field values equal the
originals. The code instead raises NameError, because the deserializer loop
reads the unbound name self inside a classmethod; this theorem evaluates the
embedded code at the failing input: a model with one scalar field in the
default group, whose serialized payload contains that field. -/
theorem c1_roundtrip_name_error :
    api_serialize [("*", [{ name := "name" }])] ⟨Val.int 1, [("name", Val.str "x")]⟩ "*" =
      .ok [("name", Val.str "x"), ("id", Val.int 1)] ∧
    api_deserialize [("*", [{ name := "name" }])] ⟨Val.pynone, [("name", Val.str "")]⟩
      [("name", Val.str "x"), ("id", Val.int 1)] "*" = .error nameErrorSelf :=
  ⟨rfl, rfl⟩

/-! ### Claim C3 -/

/-- C3: api_deserialize silently ignores payload keys with no corresponding
field in the requested group and leaves fields absent from the payload at
their default value: when no field name of the group occurs in the payload,
the result is the fresh instance unchanged except that the primary key is
taken from the payload id entry when present, and no error is raised. -/
theorem c3_deserialize_ignores (field_groups : PyDict (List FieldMeta))
    (newInstance : PyObject) (data : PyDict Val) (group : String) (fields : List FieldMeta)
    (hg : dget? field_groups group = some fields)
    (habsent : ∀ f ∈ fields, dcontains data f.name = false) :
    api_deserialize field_groups newInstance data group =
      .ok { newInstance with
            pk := if dcontains data "id" then (dget? data "id").getD Val.pynone
                  else newInstance.pk } := by
  have h1 : _get_fields field_groups group = .ok fields := by
    unfold _get_fields
    rw [hg]
  unfold api_deserialize
  rw [h1]
  cases hc : dcontains data "id" with
  | true =>
    simp only [hc, if_pos]
    exact deserializeLoop_skip data fields _ habsent
  | false =>
    simp only [hc, Bool.false_eq_true, if_neg]
    exact deserializeLoop_skip data fields _ habsent

/-- Witness for C3: the payload of the claim, a dict with keys id and bogus,
against a model with one field called name: the result has primary key 7,
the name field at its default, and no error is raised. -/
theorem c3_deserialize_ignores_witness :
    api_deserialize [("*", [{ name := "name" }])] ⟨Val.pynone, [("name", Val.str "")]⟩
        [("id", Val.int 7), ("bogus", Val.int 1)] "*" =
      .ok ⟨Val.int 7, [("name", Val.str "")]⟩ :=
  c3_deserialize_ignores [("*", [{ name := "name" }])] ⟨Val.pynone, [("name", Val.str "")]⟩
    [("id", Val.int 7), ("bogus", Val.int 1)] "*" [{ name := "name" }] rfl (by decide)

/-! ### Claim C2 -/

/-- C2 counterexample: the claim states that in the returned mapping each
registered field carries the value getter_fn(instance, name). For a group
registering a field literally named id with a getter returning 999 on an
instance with primary key 7, the returned mapping carries 7 under id, not
the getter value: the claim as stated is false. -/
theorem c2_counterexample :
    api_serialize [("g", [{ name := "id", getter := fun _ _ => Val.int 999 }])]
        ⟨Val.int 7, []⟩ "g" = .ok [("id", Val.int 7)] ∧
    ({ name := "id", getter := fun _ _ => Val.int 999 : FieldMeta }).getter
        ⟨Val.int 7, []⟩ "id" = Val.int 999 ∧
    dget? [("id", Val.int 7)] "id" ≠ some (Val.int 999) :=
  ⟨rfl, rfl, by decide⟩

/-- C2 (amended): for every declared group, api_serialize returns the
serialized mapping; its keys are exactly the field names of the group plus
id; the id entry always carries the primary key (overwriting the getter
value when a field is literally named id); the entry under any other
registered name is the getter value of the last field registered under that
name; and when the registered names are distinct and none is id, the key
order is the registration order followed by id. -/
theorem c2_serialize_mapping (field_groups : PyDict (List FieldMeta)) (g : String)
    (fields : List FieldMeta) (inst : PyObject)
    (hg : dget? field_groups g = some fields) :
    api_serialize field_groups inst g = .ok (serializeFields fields inst) ∧
    dget? (serializeFields fields inst) "id" = some inst.pk ∧
    (∀ k, k ∈ dkeys (serializeFields fields inst) ↔ (∃ f ∈ fields, f.name = k) ∨ k = "id") ∧
    (∀ (k : String) (f2 : FieldMeta),
      fields.reverse.find? (fun f3 => f3.name == k) = some f2 → k ≠ "id" →
      dget? (serializeFields fields inst) k = some (f2.getter inst f2.name)) ∧
    ((fields.map FieldMeta.name).Nodup → "id" ∉ fields.map FieldMeta.name →
      dkeys (serializeFields fields inst) = fields.map FieldMeta.name ++ ["id"]) := by
  have h1 : _get_fields field_groups g = .ok fields := by
    unfold _get_fields
    rw [hg]
  refine ⟨?_, ?_, ?_, ?_, ?_⟩
  · unfold api_serialize
    rw [h1]
  · unfold serializeFields
    exact dget?_dset_same _ "id" inst.pk
  · intro k
    unfold serializeFields
    rw [mem_dkeys_dset, serialize_foldl_mem]
    simp [dkeys]
  · intro k f2 hfind hne
    unfold serializeFields
    rw [dget?_dset_ne _ "id" k inst.pk hne]
    exact serialize_foldl_lookup_some inst fields [] k f2 hfind
  · intro hnd hid
    have hkeys : dkeys (fields.foldl
        (fun result f => dset result f.name (f.getter inst f.name)) []) =
        fields.map FieldMeta.name := by
      have h5 := serialize_foldl_keys inst fields [] hnd (fun f _ => by simp [dkeys])
      simpa using h5
    unfold serializeFields
    rw [dkeys_dset_of_not_mem _ "id" inst.pk (by rw [hkeys]; exact hid), hkeys]

/-- Witness for the amended C2 at a two-field group on an instance with
primary key 5. -/
theorem c2_serialize_mapping_witness :
    dget? (serializeFields [{ name := "make" }, { name := "color" }]
        ⟨Val.int 5, [("make", Val.str "m"), ("color", Val.str "c")]⟩) "id" = some (Val.int 5) ∧
    dkeys (serializeFields [{ name := "make" }, { name := "color" }]
        ⟨Val.int 5, [("make", Val.str "m"), ("color", Val.str "c")]⟩) =
      ["make", "color", "id"] := by
  have h := c2_serialize_mapping [("*", [{ name := "make" }, { name := "color" }])] "*"
      [{ name := "make" }, { name := "color" }]
      ⟨Val.int 5, [("make", Val.str "m"), ("color", Val.str "c")]⟩ rfl
  exact ⟨h.2.1, h.2.2.2.2 (by decide) (by decide)⟩

/-! ### Claim C8 -/

theorem pyExn_ne_of_head (a b : PyExn) (c1 c2 : Char) (h1 : a.msg.data.head? = some c1)
    (h2 : b.msg.data.head? = some c2) (hne : c1 ≠ c2) : a ≠ b := by
  intro he
  rw [he] at h1
  rw [h1] at h2
  exact hne (Option.some.inj h2)

theorem head_noGroupMsg (g : String) : (noGroupMsg g).data.head? = some 'N' := rfl

theorem head_alreadyAssembledMsg (fb : FindBy) :
    (alreadyAssembledMsg fb).data.head? = some 'A' := rfl

theorem head_registrarMany (cls : PyClass) (s : String) :
    (pyFormat (registrarManyTemplate cls) s).data.head? = some '@' := rfl

theorem head_objMany (oid : Nat) (cls : PyClass) (s : String) :
    (pyFormat (objManyTemplate oid cls) s).data.head? = some 'A' := rfl

theorem head_objZero (oid : Nat) (cls : PyClass) :
    (objZeroMsg oid cls).data.head? = some 'A' := rfl

/-- C8 counterexample: the claim states the unknown-group lookup error is
distinct in kind from every resolution-time configuration error. Both the
unknown-group error and the use-after-assembly error are raised as ValueError
in the source, so their exception classes coincide at this concrete input. -/
theorem c8_counterexample :
    api_serialize [("*", [])] ⟨Val.int 1, []⟩ "nonexistent" =
      .error (noGroupExn "nonexistent") ∧
    (APIEngine._request ⟨Option.none, some [("*", [])], some "t", some []⟩
        (FindBy.attrName "late") ["*"] Option.none).1 =
      .error (alreadyAssembledExn (FindBy.attrName "late")) ∧
    (noGroupExn "nonexistent").cls = (alreadyAssembledExn (FindBy.attrName "late")).cls :=
  ⟨rfl, rfl, rfl⟩

/-- C8 (amended): for every group name not declared on the model, serialize
and deserialize both raise the lookup ValueError carrying the
no-fields-registered message, propagated to the caller; that error value is
distinct from every resolution-time configuration error (use-after-finalize,
ambiguous marker, marker not found), although it shares the ValueError
exception class with them. -/
theorem c8_lookup_error (field_groups : PyDict (List FieldMeta))
    (inst newInstance : PyObject) (data : PyDict Val) (group : String)
    (hg : dget? field_groups group = Option.none) :
    api_serialize field_groups inst group = .error (noGroupExn group) ∧
    api_deserialize field_groups newInstance data group = .error (noGroupExn group) ∧
    (noGroupExn group).cls = ExnClass.valueError ∧
    (∀ fb : FindBy, noGroupExn group ≠ alreadyAssembledExn fb) ∧
    (∀ (cls : PyClass) (s : String),
      noGroupExn group ≠ ⟨ExnClass.valueError, pyFormat (registrarManyTemplate cls) s⟩) ∧
    (∀ (oid : Nat) (cls : PyClass) (s : String),
      noGroupExn group ≠ ⟨ExnClass.valueError, pyFormat (objManyTemplate oid cls) s⟩) ∧
    (∀ (oid : Nat) (cls : PyClass),
      noGroupExn group ≠ ⟨ExnClass.valueError, objZeroMsg oid cls⟩) := by
  have h1 : _get_fields field_groups group = .error (noGroupExn group) := by
    unfold _get_fields
    rw [hg]
  refine ⟨?_, ?_, rfl, ?_, ?_, ?_, ?_⟩
  · unfold api_serialize
    rw [h1]
  · unfold api_deserialize
    rw [h1]
  · intro fb
    exact pyExn_ne_of_head _ _ 'N' 'A' (head_noGroupMsg group)
      (head_alreadyAssembledMsg fb) (by decide)
  · intro cls s
    exact pyExn_ne_of_head _ _ 'N' '@' (head_noGroupMsg group)
      (head_registrarMany cls s) (by decide)
  · intro oid cls s
    exact pyExn_ne_of_head _ _ 'N' 'A' (head_noGroupMsg group)
      (head_objMany oid cls s) (by decide)
  · intro oid cls
    exact pyExn_ne_of_head _ _ 'N' 'A' (head_noGroupMsg group)
      (head_objZero oid cls) (by decide)

/-- Witness for the amended C8: the undeclared group of the claim against a
model whose only group is the default one. -/
theorem c8_lookup_error_witness :
    api_serialize [("*", [])] ⟨Val.int 1, []⟩ "nonexistent" =
      .error (noGroupExn "nonexistent") ∧
    api_deserialize [("*", [])] ⟨Val.pynone, []⟩ [] "nonexistent" =
      .error (noGroupExn "nonexistent") ∧
    noGroupExn "nonexistent" ≠ alreadyAssembledExn (FindBy.attrName "late") := by
  have h := c8_lookup_error [("*", [])] ⟨Val.int 1, []⟩ ⟨Val.pynone, []⟩ [] "nonexistent" rfl
  exact ⟨h.1, h.2.1, h.2.2.2.1 (FindBy.attrName "late")⟩

/-! ### Claim C9 -/

theorem insertSpec_false_eq (l : List Char) : insertSpec false l = insertUnderscores l := by
  induction l with
  | nil => rfl
  | cons c rest ih =>
    simp only [insertSpec, insertUnderscores, Bool.not_false, Bool.and_true, ih]
    by_cases hc : c.isUpper
    · simp [hc]
    · simp [hc]

/-- C9: for every model class name, finalization computes api_name by
inserting an underscore before each internal uppercase letter of the type
name and lowercasing the result, never before the first character; the regex
embedding agrees with the specification wording on every input, the three
example names map as the claim states, and every successful assembly
publishes exactly this derivation of the class name. -/
theorem c9_api_name :
    (∀ s : String, pyApiName s = api_name_spec s) ∧
    pyApiName "MinecraftVersion" = "minecraft_version" ∧
    pyApiName "Submission" = "submission" ∧
    pyApiName "Profile" = "profile" ∧
    (∀ (cls : PyClass) (requests : List Request) (a : AssembledAPI),
      _assemble_groups cls requests = .ok a → a.api_name = pyApiName cls.name) := by
  refine ⟨?_, rfl, rfl, rfl, ?_⟩
  · intro s
    unfold pyApiName api_name_spec
    cases hd : s.data with
    | nil => rfl
    | cons c rest =>
      simp only [insertSpec, Bool.not_true, Bool.and_false, List.nil_append]
      rw [insertSpec_false_eq]
      simp
  · intro cls requests a h
    unfold _assemble_groups at h
    cases hf : requests.foldlM (assembleStep cls) ([] : PyDict (List FieldMeta)) with
    | error e => rw [hf] at h; exact absurd h (by simp)
    | ok fgs =>
      rw [hf] at h
      simp only [Except.ok.injEq] at h
      rw [← h]

/-- Witness for C9: a model class named MinecraftVersion with no requests
assembles and publishes api_name minecraft_version. -/
theorem c9_api_name_witness :
    pyApiName "MinecraftVersion" = api_name_spec "MinecraftVersion" ∧
    _assemble_groups ⟨"MinecraftVersion", [], Option.none⟩ [] =
      .ok ⟨[], "minecraft_version", []⟩ ∧
    ("minecraft_version" : String) = pyApiName "MinecraftVersion" :=
  ⟨c9_api_name.1 "MinecraftVersion", rfl,
    c9_api_name.2.2.2.2 ⟨"MinecraftVersion", [], Option.none⟩ []
      ⟨[], "minecraft_version", []⟩ rfl⟩

/-! ### Claim C7 -/

/-- C7: once finalization has run, every subsequent registration call — the
underlying request method, add_field, or add_related — fails with the
already-assembled ValueError, and the engine state, in particular its frozen
field_groups, is left unchanged by the failed call. -/
theorem c7_frozen_after_assembly (e e2 : APIEngine) (cls : PyClass)
    (h : APIEngine.assemble e cls = .ok e2) :
    ∀ (fb : FindBy) (groups : List String) (acc : Option Accessors)
      (name : String) (gsf : GroupsArg) (accf : Option Accessors)
      (name2 : String) (gsr : GroupsArg),
      (e2._request fb groups acc).1 = .error (alreadyAssembledExn fb) ∧
      (e2._request fb groups acc).2 = e2 ∧
      (e2.add_field name gsf accf).1 = .error (alreadyAssembledExn (FindBy.attrName name)) ∧
      (e2.add_field name gsf accf).2 = e2 ∧
      (e2.add_related name2 gsr).1 = .error (alreadyAssembledExn (FindBy.attrName name2)) ∧
      (e2.add_related name2 gsr).2 = e2 ∧
      (e2.add_field name gsf accf).2.field_groups = e2.field_groups := by
  have hreq : e2._requests = Option.none := by
    unfold APIEngine.assemble at h
    cases ha : _assemble_groups cls (e._requests.getD []) with
    | error ex => rw [ha] at h; exact absurd h (by simp)
    | ok a =>
      rw [ha] at h
      simp only [Except.ok.injEq] at h
      rw [← h]
  intro fb groups acc name gsf accf name2 gsr
  unfold APIEngine.add_related APIEngine.add_field APIEngine._request
  rw [hreq]
  exact ⟨rfl, rfl, rfl, rfl, rfl, rfl, rfl⟩

/-- Witness for C7: the engine of a trivial model class T after assembly
rejects a late add_field and a late add_related, leaving the frozen empty
field_groups unchanged. -/
theorem c7_frozen_after_assembly_witness :
    ((⟨Option.none, some [], some "t", some []⟩ : APIEngine)._request
        (FindBy.attrName "x") ["*"] Option.none).1 =
      .error (alreadyAssembledExn (FindBy.attrName "x")) ∧
    ((⟨Option.none, some [], some "t", some []⟩ : APIEngine).add_field "late"
        (GroupsArg.str "*") Option.none).1 =
      .error (alreadyAssembledExn (FindBy.attrName "late")) ∧
    ((⟨Option.none, some [], some "t", some []⟩ : APIEngine).add_related "revisions"
        (GroupsArg.str "*")).2.field_groups = some [] := by
  have h := c7_frozen_after_assembly APIEngine.init
      ⟨Option.none, some [], some "t", some []⟩ ⟨"T", [], Option.none⟩ rfl
      (FindBy.attrName "x") ["*"] Option.none "late" (GroupsArg.str "*") Option.none
      "revisions" (GroupsArg.str "*")
  refine ⟨h.1, h.2.2.1, ?_⟩
  rw [h.2.2.2.2.2.1]

/-! ### Group fold lemmas for the resolver -/

theorem groupFold_ne (field : FieldMeta) :
    ∀ (groups : List String) (fgs : PyDict (List FieldMeta)) (g : String), g ∉ groups →
      dget? (groups.foldl
        (fun fgs2 group => dset fgs2 group ((dget? fgs2 group).getD [] ++ [field])) fgs) g =
        dget? fgs g := by
  intro groups
  induction groups with
  | nil => intro fgs g _; rfl
  | cons g0 rest ih =>
    intro fgs g hg
    rw [List.foldl_cons, ih _ g (fun hm => hg (by simp [hm]))]
    exact dget?_dset_ne fgs g0 g _ (fun e => hg (by rw [e]; simp))

theorem groupFold_mem (field : FieldMeta) :
    ∀ (groups : List String) (fgs : PyDict (List FieldMeta)) (g : String),
      groups.Nodup → g ∈ groups →
      dget? (groups.foldl
        (fun fgs2 group => dset fgs2 group ((dget? fgs2 group).getD [] ++ [field])) fgs) g =
        some ((dget? fgs g).getD [] ++ [field]) := by
  intro groups
  induction groups with
  | nil => intro fgs g _ hg; simp at hg
  | cons g0 rest ih =>
    intro fgs g hnd hg
    rw [List.nodup_cons] at hnd
    rw [List.foldl_cons]
    rcases List.mem_cons.mp hg with he | hm
    · subst he
      rw [groupFold_ne field rest _ g hnd.1, dget?_dset_same]
    · have hne : g ≠ g0 := fun e => hnd.1 (e ▸ hm)
      rw [ih _ g hnd.2 hm, dget?_dset_ne fgs g0 g _ hne]

/-! ### Claim C4 -/

/-- C4: a foreign-key-typed attribute X registered without explicit
accessors resolves to a FieldMeta under the raw column name (X followed by
the _id suffix, the Django attname) with plain attribute accessors; the
resolver appends that FieldMeta to every group the request listed; and
serializing the field reads the stored raw identifier, not a nested
object. -/
theorem c4_foreign_key_id (cls : PyClass) (X : String) (ca : ClassAttr)
    (groups : List String) (field_groups : PyDict (List FieldMeta))
    (hattr : dget? cls.dict X = some ca)
    (hfk : ca.field = some ⟨DjFieldKind.foreignKey, X ++ "_id"⟩)
    (hnd : groups.Nodup) :
    _determine_field_meta cls X = ⟨X ++ "_id", py_getattr, py_setattr⟩ ∧
    (assembleStep cls field_groups ⟨FindBy.attrName X, groups, Option.none⟩ =
      .ok (groups.foldl
        (fun fgs2 group => dset fgs2 group
          ((dget? fgs2 group).getD [] ++ [⟨X ++ "_id", py_getattr, py_setattr⟩]))
        field_groups) ∧
      ∀ g ∈ groups,
        dget? (groups.foldl
          (fun fgs2 group => dset fgs2 group
            ((dget? fgs2 group).getD [] ++ [⟨X ++ "_id", py_getattr, py_setattr⟩]))
          field_groups) g =
          some ((dget? field_groups g).getD [] ++ [⟨X ++ "_id", py_getattr, py_setattr⟩])) ∧
    (∀ (inst : PyObject) (rawId : Val), dget? inst.attrs (X ++ "_id") = some rawId →
      (_determine_field_meta cls X).getter inst ((_determine_field_meta cls X).name) = rawId) := by
  have hdet : _determine_field_meta cls X = ⟨X ++ "_id", py_getattr, py_setattr⟩ := by
    simp [_determine_field_meta, hattr, hfk]
  refine ⟨hdet, ⟨?_, ?_⟩, ?_⟩
  · simp only [assembleStep, resolveRequestName, hdet]
  · intro g hgm
    exact groupFold_mem ⟨X ++ "_id", py_getattr, py_setattr⟩ groups field_groups g hnd hgm
  · intro inst rawId hraw
    rw [hdet]
    show py_getattr inst (X ++ "_id") = rawId
    unfold py_getattr
    rw [hraw]
    rfl

/-- Witness for C4: the attribute owner of a class Submission holding a
foreign key with attname owner_id, registered in the default and basic
groups. -/
theorem c4_foreign_key_id_witness :
    _determine_field_meta
        ⟨"Submission",
         [("owner", ⟨1, some ⟨DjFieldKind.foreignKey, "owner_id"⟩, false, false⟩)],
         Option.none⟩ "owner" =
      ⟨"owner_id", py_getattr, py_setattr⟩ ∧
    py_getattr ⟨Val.int 3, [("owner_id", Val.int 42)]⟩ "owner_id" = Val.int 42 := by
  have h := c4_foreign_key_id
      ⟨"Submission",
       [("owner", ⟨1, some ⟨DjFieldKind.foreignKey, "owner_id"⟩, false, false⟩)],
       Option.none⟩ "owner"
      ⟨1, some ⟨DjFieldKind.foreignKey, "owner_id"⟩, false, false⟩
      ["*", "basic"] [] rfl rfl (by decide)
  refine ⟨h.1, ?_⟩
  have h3 := h.2.2 ⟨Val.int 3, [("owner_id", Val.int 42)]⟩ (Val.int 42) rfl
  rw [h.1] at h3
  exact h3

/-! ### Claim C5 -/

theorem propertyChainAux_invariant :
    ∀ (n : Nat) (ctx : PropContext) (last : Nat),
      ctx.requestFindBy = last → ctx.nextOid = last + 1 →
      (propertyChainAux n (ctx, last)).1.requestFindBy = (propertyChainAux n (ctx, last)).2 ∧
      (propertyChainAux n (ctx, last)).2 = last + n := by
  intro n
  induction n with
  | zero =>
    intro ctx last h1 h2
    exact ⟨by simp [propertyChainAux, h1], by simp [propertyChainAux]⟩
  | succ m ih =>
    intro ctx last h1 h2
    have h3 := ih ⟨ctx.nextOid + 1, ctx.nextOid⟩ ctx.nextOid rfl rfl
    constructor
    · exact h3.1
    · rw [show (propertyChainAux (m + 1) (ctx, last)).2 =
          (propertyChainAux m (⟨ctx.nextOid + 1, ctx.nextOid⟩, ctx.nextOid)).2 from rfl,
        h3.2, h2]
      omega

/-- C5: for a field declared via the property factory, each rebinding step
allocates a brand-new descriptor object (its id differs from every earlier
descriptor of the chain) and updates the originating request locator to that
new object, so the locator always equals the final descriptor, and
resolution by object identity at class-finalization time finds the attribute
bound to that final descriptor. -/
theorem c5_property_rebind (start n : Nat) :
    (propertyChain start n).1.requestFindBy = (propertyChain start n).2 ∧
    (propertyChain start n).2 = start + n ∧
    (∀ m : Nat, m < n → (propertyChain start m).2 ≠ (propertyChain start n).2) ∧
    (∀ (cls : PyClass) (groups : List String) (acc : Option Accessors) (aname : String),
      (cls.dict.filter (fun p => p.2.oid == (propertyChain start n).2)).map (fun p => p.1) =
        [aname] →
      resolveRequestName cls ⟨FindBy.attrObject (propertyChain start n).2, groups, acc⟩ =
        .ok (some aname)) := by
  have hinv := propertyChainAux_invariant n ⟨start + 1, start⟩ start rfl rfl
  refine ⟨hinv.1, hinv.2, ?_, ?_⟩
  · intro m hm
    have h1 := (propertyChainAux_invariant m ⟨start + 1, start⟩ start rfl rfl).2
    rw [show (propertyChain start m).2 =
        (propertyChainAux m (⟨start + 1, start⟩, start)).2 from rfl, h1,
      show (propertyChain start n).2 =
        (propertyChainAux n (⟨start + 1, start⟩, start)).2 from rfl, hinv.2]
    omega
  · intro cls groups acc aname hf
    simp only [resolveRequestName]
    rw [hf]
    rfl

/-- Witness for C5: two rebinding steps starting at object id 10 leave the
request locator at the final descriptor id 12, and resolution over a class
binding color_rgb to that descriptor finds color_rgb. -/
theorem c5_property_rebind_witness :
    (propertyChain 10 2).1.requestFindBy = 12 ∧
    (propertyChain 10 0).2 ≠ (propertyChain 10 2).2 ∧
    resolveRequestName ⟨"Car", [("color_rgb", ⟨12, Option.none, false, false⟩)], Option.none⟩
        ⟨FindBy.attrObject 12, ["*"], Option.none⟩ = .ok (some "color_rgb") := by
  have h := c5_property_rebind 10 2
  refine ⟨by rw [h.1, h.2.1], h.2.2.1 0 (by decide), ?_⟩
  exact h.2.2.2 ⟨"Car", [("color_rgb", ⟨12, Option.none, false, false⟩)], Option.none⟩
    ["*"] Option.none "color_rgb" (by decide)

/-! ### Claim C6 -/

/-- C6: the claim states that a registrar matching zero annotations is
silently skipped (this part holds) and that a registrar matching two
annotations a and b fails with an ambiguous-marker ValueError naming all
duplicates. The code does raise the ValueError, but its message contains a
literal empty brace pair where the names were meant to be spliced: the
doubled braces sit in a plain (non-formatted) literal, so str.format
collapses them and drops the duplicate list, unlike the parallel
attribute-object branch whose f-string template names the duplicates. This
theorem evaluates the embedded code at both inputs. -/
theorem c6_ambiguous_marker_eval :
    _assemble_groups
        ⟨"Widget", [("a", ⟨1, Option.none, false, false⟩), ("b", ⟨2, Option.none, false, false⟩)],
         some [("a", 5), ("b", 5)]⟩
        [⟨FindBy.registrar 5 ["*"], ["*"], Option.none⟩] =
      .error ⟨ExnClass.valueError,
        "@_api() annotation reused on fields \x7b\x7d in <class \x27Widget\x27>"⟩ ∧
    strContains "@_api() annotation reused on fields \x7b\x7d in <class \x27Widget\x27>"
      (pyQuote "a") = false ∧
    strContains "@_api() annotation reused on fields \x7b\x7d in <class \x27Widget\x27>"
      (pyQuote "b") = false ∧
    strContains (pyFormat (objManyTemplate 7 ⟨"Widget", [], Option.none⟩)
      (pyStrList ["a", "b"])) (pyQuote "a") = true ∧
    strContains (pyFormat (objManyTemplate 7 ⟨"Widget", [], Option.none⟩)
      (pyStrList ["a", "b"])) (pyQuote "b") = true ∧
    _assemble_groups ⟨"Gizmo", [], some [("x", 9)]⟩
        [⟨FindBy.registrar 5 ["*"], ["*"], Option.none⟩] =
      .ok ⟨[], "gizmo", []⟩ :=
  ⟨rfl, by decide, by decide, by decide, by decide, rfl⟩
